import Mathlib

/-!
Verification of the vendor fact-sheet generation pipeline (generator.py).

The development shallowly embeds the text object model of the presentation
library at the level of its documented API (text frames holding paragraphs,
paragraphs holding runs and other text-bearing children, runs carrying font
attributes), together with the program's own functions: the placeholder
substitution engine `search_and_replace`, the placeholder map builder
`replace_vendor_placeholders`, the two table formatters, the historical
spend simulator, and the per-vendor document assembly loop
`generate_vendor_fact_sheets`.
-/

namespace FactSheet

/-- Font attributes the program reads and writes: name, size, bold, italic
(generator.py lines 354-358).  `none` models an unset attribute. -/
structure Font where
  name : Option String
  size : Option Nat
  bold : Option Bool
  italic : Option Bool
deriving DecidableEq

/-- A styled run of text inside a paragraph. -/
structure Run where
  text : String
  font : Font
deriving DecidableEq

/-- A text-bearing child of a paragraph.  Besides styled runs, a paragraph
may hold line breaks (contributing a vertical-tab character to the
paragraph's visible text) and fields (contributing their text without being
runs); a paragraph's `runs` collection lists only the styled runs, while its
visible `text` concatenates the text of every child. -/
inductive Chunk where
  | run : Run → Chunk
  | br : Chunk
  | fld : String → Chunk
deriving DecidableEq

/-- The character a line-break child contributes to the visible text. -/
def brChar : Char := '\x0b'

/-- The character separating paragraphs in a frame's visible text. -/
def newlineChar : Char := '\n'

/-- Characters a paragraph child contributes to the visible text. -/
def chunkChars : Chunk → List Char
  | Chunk.run r => r.text.data
  | Chunk.br => [brChar]
  | Chunk.fld t => t.data

/-- A paragraph is an ordered list of text-bearing children. -/
structure Paragraph where
  chunks : List Chunk
deriving DecidableEq

/-- Visible text of a paragraph, as a character list. -/
def Paragraph.chars (p : Paragraph) : List Char :=
  p.chunks.flatMap chunkChars

/-- Visible text of a paragraph. -/
def Paragraph.text (p : Paragraph) : String :=
  ⟨p.chars⟩

/-- The styled runs of a paragraph (fields and line breaks are not runs). -/
def Paragraph.runs (p : Paragraph) : List Run :=
  p.chunks.filterMap fun c =>
    match c with
    | Chunk.run r => some r
    | _ => none

/-- A text frame is an ordered list of paragraphs. -/
structure TextFrame where
  paragraphs : List Paragraph
deriving DecidableEq

/-- Join character lists with a separator character between them. -/
def joinWith (c : Char) : List (List Char) → List Char
  | [] => []
  | [x] => x
  | x :: y :: rest => x ++ c :: joinWith c (y :: rest)

/-- Visible text of a frame: paragraphs separated by newlines, as chars. -/
def TextFrame.chars (tf : TextFrame) : List Char :=
  joinWith newlineChar (tf.paragraphs.map Paragraph.chars)

/-- Visible text of a frame: paragraph texts separated by newlines. -/
def TextFrame.text (tf : TextFrame) : String :=
  ⟨tf.chars⟩

/-- Substring test, the semantics of the Python `in` operator on strings. -/
def strContains (hay needle : String) : Bool :=
  hay.data.tails.any fun t => needle.data.isPrefixOf t

/-- Replace occurrences of `pat` left to right, non-overlapping; `fuel`
bounds the recursion (the full input length always suffices). -/
def replaceFuel (pat sub : List Char) : Nat → List Char → List Char
  | _, [] => []
  | 0, l => l
  | fuel + 1, c :: rest =>
    if pat.isPrefixOf (c :: rest) then
      sub ++ replaceFuel pat sub fuel (List.drop (pat.length - 1) rest)
    else
      c :: replaceFuel pat sub fuel rest

/-- Python `str.replace`: replace every non-overlapping occurrence of `pat`
in `s` by `sub`, scanning left to right.  (For the empty pattern the model
returns `s` unchanged; every placeholder token in the program is
nonempty.) -/
def strReplace (s pat sub : String) : String :=
  if pat.data.isEmpty then s else ⟨replaceFuel pat.data sub.data s.data.length s.data⟩

/-- Split a character list at every occurrence of `c`; the semantics of
Python `str.split(c)` (empty parts preserved, never returns zero parts). -/
def splitOnChar (c : Char) : List Char → List (List Char)
  | [] => [[]]
  | x :: xs =>
    if x = c then [] :: splitOnChar c xs
    else
      match splitOnChar c xs with
      | [] => [[x]]
      | h :: t => (x :: h) :: t

/-- Python `repl_str.split('\n')` (generator.py line 350). -/
def strLines (s : String) : List String :=
  (splitOnChar newlineChar s.data).map fun l => ⟨l⟩

/-- A run freshly created by the library carries no explicit font
attributes. -/
def emptyFont : Font :=
  ⟨none, none, none, none⟩

/-- Rebuild a paragraph's children from split text parts: runs separated by
line-break children. -/
def chunksOfParts : List (List Char) → List Chunk
  | [] => []
  | [p] => [Chunk.run ⟨⟨p⟩, emptyFont⟩]
  | p :: q :: rest => Chunk.run ⟨⟨p⟩, emptyFont⟩ :: Chunk.br :: chunksOfParts (q :: rest)

/-- Assigning a paragraph's `text` replaces all of its children with plain
runs (vertical-tab characters becoming line-break children), the library
semantics of the assignment on generator.py line 353. -/
def setParagraphText (t : String) : Paragraph :=
  ⟨chunksOfParts (splitOnChar brChar t.data)⟩

/-- The loop on generator.py lines 354-358: set every run's font name,
size, bold and italic to the captured original attributes. -/
def applyFontToRuns (f : Font) (p : Paragraph) : Paragraph :=
  ⟨p.chunks.map fun c =>
    match c with
    | Chunk.run r => Chunk.run { r with font := f }
    | other => other⟩

/-- The exceptions the embedded code can raise: an IndexError from
`runs[0]`, `iloc[0]` or `slides[0]`, and an AttributeError from the
paragraph-clearing loop (generator.py line 346 calls
`text_frame._element.get_or_add_trPr()`, a method that does not exist on a
presentation text body, so the loop's first iteration raises instead of
removing a paragraph). -/
inductive PptxError where
  | indexError
  | attributeError
deriving DecidableEq

/-- Results of fallible steps are comparable whenever both components
are. -/
instance {ε α : Type} [DecidableEq ε] [DecidableEq α] : DecidableEq (Except ε α) := fun x y =>
  match x, y with
  | Except.ok a, Except.ok b =>
    match decEq a b with
    | isTrue h => isTrue (h ▸ rfl)
    | isFalse h => isFalse fun hc => h (Except.ok.inj hc)
  | Except.error e, Except.error f =>
    match decEq e f with
    | isTrue h => isTrue (h ▸ rfl)
    | isFalse h => isFalse fun hc => h (Except.error.inj hc)
  | Except.ok _, Except.error _ => isFalse fun hc => Except.noConfusion hc
  | Except.error _, Except.ok _ => isFalse fun hc => Except.noConfusion hc

/-- The per-frame body of `search_and_replace` (generator.py lines
336-369): if the frame's visible text contains the token and the first
paragraph's text contains the token, capture the first run's font (an
IndexError if the first paragraph has no runs, line 342); then the clearing
loop `while len(text_frame.paragraphs) > 1` runs — its body calls
`get_or_add_trPr()` on the text body, a method that does not exist, so a
frame with more than one paragraph raises an AttributeError on the first
iteration (line 346).  Only a one-paragraph frame proceeds: the token is
replaced in the first paragraph's text, the captured font attributes are
restored on its runs, and one new paragraph is appended per remaining
replacement line, each a single run with the captured font. -/
def substFrame (searchStr replStr : String) (tf : TextFrame) : Except PptxError TextFrame :=
  if strContains tf.text searchStr then
    match tf.paragraphs with
    | [] => Except.ok tf
    | firstPara :: rest =>
      if strContains firstPara.text searchStr then
        match firstPara.runs with
        | [] => Except.error PptxError.indexError
        | r0 :: _ =>
          match rest with
          | _ :: _ => Except.error PptxError.attributeError
          | [] =>
            let originalFont := r0.font
            let lines := strLines replStr
            let newFirst :=
              applyFontToRuns originalFont
                (setParagraphText (strReplace firstPara.text searchStr (lines.headD "")))
            let extra :=
              (lines.drop 1).map fun line => Paragraph.mk [Chunk.run ⟨line, originalFont⟩]
            Except.ok ⟨newFirst :: extra⟩
      else Except.ok tf
  else Except.ok tf

/-- Text of a fixed-layout table cell; the formatters only ever write cell
text, a fixed font name and size (and bold on headers), so the cell model
keeps the text. -/
structure Table where
  headers : List String
  dataRows : List (List String)
deriving DecidableEq

/-- A slide shape: a text frame, an embedded picture, or a table. -/
inductive Shape where
  | textShape : TextFrame → Shape
  | picture : String → Shape
  | table : Table → Shape
deriving DecidableEq

/-- A slide is an ordered list of shapes. -/
structure Slide where
  shapes : List Shape
deriving DecidableEq

/-- A presentation is an ordered list of slides. -/
structure Presentation where
  slides : List Slide
deriving DecidableEq

/-- Apply the per-frame substitution to one shape; only shapes with a text
frame are touched (generator.py line 335). -/
def substShape (searchStr replStr : String) (sh : Shape) : Except PptxError Shape :=
  match sh with
  | Shape.textShape tf => (substFrame searchStr replStr tf).map Shape.textShape
  | other => Except.ok other

/-- Sequentially substitute over a slide's shapes; the first raised
exception aborts the traversal, as in the Python loop. -/
def substShapes (searchStr replStr : String) : List Shape → Except PptxError (List Shape)
  | [] => Except.ok []
  | sh :: rest => do
    let sh' ← substShape searchStr replStr sh
    let rest' ← substShapes searchStr replStr rest
    Except.ok (sh' :: rest')

/-- Sequentially substitute over the slides of a presentation. -/
def substSlides (searchStr replStr : String) : List Slide → Except PptxError (List Slide)
  | [] => Except.ok []
  | sl :: rest => do
    let sh' ← substShapes searchStr replStr sl.shapes
    let rest' ← substSlides searchStr replStr rest
    Except.ok (Slide.mk sh' :: rest')

/-- `search_and_replace` (generator.py lines 328-369): walk every shape of
every slide and substitute the token in each text frame. -/
def search_and_replace (searchStr replStr : String) (prs : Presentation) : Except PptxError Presentation :=
  (substSlides searchStr replStr prs.slides).map Presentation.mk

/-- A calendar date; the dataset's contract date columns hold either a date
or a missing value (`none`, pandas `NaT`). -/
structure Date where
  year : Nat
  month : Nat
  day : Nat
deriving DecidableEq

/-- A cleaned IT-spend row after historical simulation (columns
`Vendor Name`, `Category`, `Spend 2024/2023/2022 (€m)`). -/
structure SimRow where
  vendorName : String
  category : String
  spend2024 : ℚ
  spend2023 : ℚ
  spend2022 : ℚ
deriving DecidableEq

/-- A cleaned contracting-report row (generator.py lines 161-170 name the
columns it reads). -/
structure ContractRow where
  contractId : String
  contractName : String
  description : String
  effectiveDate : Option Date
  expirationDate : Option Date
  amount : ℚ
  supplierName : String
deriving DecidableEq

/-- A cleaned sourcing-event row (generator.py lines 240-244 name the
columns it reads). -/
structure ProjectRow where
  projectId : String
  projectName : String
  shortDescription : String
  baselineSpend : ℚ
  supplierName : String
deriving DecidableEq

/-- Python slicing `s[:n]`. -/
def strTake (s : String) (n : Nat) : String :=
  ⟨s.data.take n⟩

/-- Two-digit rendering of a month or day number. -/
def pad2 (n : Nat) : String :=
  if n < 10 then "0" ++ toString n else toString n

/-- `str(timestamp.date())`: ISO date rendering. -/
def dateISO (d : Date) : String :=
  toString d.year ++ "-" ++ pad2 d.month ++ "-" ++ pad2 d.day

/-- The `.year` attribute rendered inside the f-string on generator.py
line 165: a real date prints its year, the missing value prints `nan`. -/
def yearStr : Option Date → String
  | some d => toString d.year
  | none => "nan"

/-- The derived Term cell (generator.py lines 165-166): the guard tests
only the effective date, so a present effective date is always formatted
with whatever `.year` of the expiration date renders as. -/
def termCell (eff exp : Option Date) : String :=
  match eff with
  | some d => toString d.year ++ "-" ++ yearStr exp
  | none => "N/A"

/-- The Exp. date cell (generator.py lines 167-168). -/
def expDateCell (exp : Option Date) : String :=
  match exp with
  | some d => dateISO d
  | none => "N/A"

/-- `str(round(x, 1))` for the money cells.  (Python rounds ties to even;
the model rounds ties away from zero — the difference is immaterial to
every property below, none of which inspects a money cell at a tie.) -/
def moneyStr (q : ℚ) : String :=
  let z : ℤ := round (q * 10)
  (if z < 0 then "-" else "") ++ toString (z.natAbs / 10) ++ "." ++ toString (z.natAbs % 10)

/-- The six cell texts of one Contracts table row (generator.py lines
161-170). -/
def contractCells (r : ContractRow) : List String :=
  [strTake r.contractId 8, strTake r.contractName 15, strTake r.description 25,
   termCell r.effectiveDate r.expirationDate, expDateCell r.expirationDate,
   moneyStr r.amount]

/-- The four cell texts of one Projects table row (generator.py lines
240-247). -/
def projectCells (r : ProjectRow) : List String :=
  [strTake r.projectId 8, strTake r.projectName 20, strTake r.shortDescription 30,
   moneyStr r.baselineSpend]

/-- The Key Contracts table built by `generate_key_contracts_table`
(generator.py lines 105-186): `rows = min(len(data), 4)` when the data is
nonempty, else a single blank data row; the populated rows are the first
`rows` data rows in input order. -/
def contractsTable (data : List ContractRow) : Table :=
  let rows := if data.isEmpty then 1 else min data.length 4
  { headers := ["ID", "Name", "Short description", "Term", "Exp. date", "TCV (€m)"]
    dataRows :=
      if data.isEmpty then [List.replicate 6 ""]
      else (data.take rows).map contractCells }

/-- The Planned Projects table built by `generate_planned_projects_table`
(generator.py lines 188-263): cap 3 rows, 4 columns, same shape rules. -/
def projectsTable (data : List ProjectRow) : Table :=
  let rows := if data.isEmpty then 1 else min data.length 3
  { headers := ["Project", "Name", "Short Description", "Value (€m)"]
    dataRows :=
      if data.isEmpty then [List.replicate 4 ""]
      else (data.take rows).map projectCells }

/-- `generate_key_contracts_table` adds the built table to the slide. -/
def generate_key_contracts_table (sl : Slide) (data : List ContractRow) : Slide :=
  ⟨sl.shapes ++ [Shape.table (contractsTable data)]⟩

/-- `generate_planned_projects_table` adds the built table to the slide. -/
def generate_planned_projects_table (sl : Slide) (data : List ProjectRow) : Slide :=
  ⟨sl.shapes ++ [Shape.table (projectsTable data)]⟩

/-- The chart image artifact written by `generate_it_spend_chart`
(generator.py lines 267-295): a bar chart of the 2022/2023/2024 spends,
saved under a path keyed by vendor name. -/
structure ChartFile where
  path : String
  spends : List ℚ
deriving DecidableEq

/-- `generate_it_spend_chart vendor row`: render the three-year series of
the given spend row to `plots/{vendor}_spend_chart.png`. -/
def generate_it_spend_chart (vendor : String) (row : SimRow) : ChartFile :=
  ⟨"plots/" ++ vendor ++ "_spend_chart.png", [row.spend2022, row.spend2023, row.spend2024]⟩

/-- `add_image_to_slide` (generator.py lines 298-312). -/
def add_image_to_slide (sl : Slide) (imagePath : String) : Slide :=
  ⟨sl.shapes ++ [Shape.picture imagePath]⟩

/-- The nested `Financials` object of one vendor's profile entry in
`all_vendors_data.json`. -/
structure Financials where
  revenue : String
  marketCap : String
  growthRate : String
deriving DecidableEq

/-- One vendor's entry in the vendor-profile store
(`all_vendors_data.json`), with the fields `replace_vendor_placeholders`
reads. -/
structure VendorProfile where
  keyAccountManagers : List String
  keyStakeholders : List String
  financials : Financials
  marketTrends : String
  strategy : String
  msg : String
deriving DecidableEq

/-- `replace_vendor_placeholders` (generator.py lines 372-407): build the
placeholder map in the dictionary's insertion order and apply
`search_and_replace` once per (token, value) pair.  `today` stands for
`datetime.now().strftime('%d.%m.%Y')`. -/
def replace_vendor_placeholders (today vendorName : String) (vd : VendorProfile)
    (prs : Presentation) : Except PptxError Presentation :=
  let timestamp := "VENDOR FACT SHEET - AS AT " ++ today
  let financialsText :=
    "• Revenue: " ++ vd.financials.revenue ++ "\n• Market Cap: " ++ vd.financials.marketCap ++
      "\n• Growth Rate: " ++ vd.financials.growthRate
  let keyAccountManagers := String.intercalate "\n" (vd.keyAccountManagers.map fun m => "• " ++ m)
  let keyStakeholders := String.intercalate "\n" (vd.keyStakeholders.map fun s => "• " ++ s)
  let replacements :=
    [("[Timestamp]", timestamp), ("[Vendor Name]", vendorName),
     ("[KeyAccountManagers]", keyAccountManagers), ("[KeyStakeholders]", keyStakeholders),
     ("[Financials]", financialsText), ("[MarketTrends]", vd.marketTrends),
     ("[Strategy]", vd.strategy), ("[Msg]", vd.msg)]
  replacements.foldlM (fun p kv => search_and_replace kv.1 kv.2 p) prs

/-- The inputs of `generate_vendor_fact_sheets` (generator.py lines
410-482): the template, the vendor roster, the three cleaned datasets, the
profile store loaded from `all_vendors_data.json`, and the current date. -/
structure AssemblerInput where
  template : Presentation
  vendors : List String
  itSpend : List SimRow
  contracting : List ContractRow
  sourcing : List ProjectRow
  profiles : List (String × VendorProfile)
  today : String

/-- One iteration of the vendor loop (generator.py lines 439-480): reload
the template, slice the three datasets to the vendor, render and embed the
chart from the first spend row (`vendor_spend.iloc[0]` raises an
IndexError when the slice is empty), add the two tables, substitute the
placeholders only when the vendor has a profile entry, and save the
document keyed by vendor name. -/
def processVendor (inp : AssemblerInput) (vendor : String) :
    Except PptxError ((String × Presentation) × ChartFile) := do
  match inp.template.slides with
  | [] => Except.error PptxError.indexError
  | slide0 :: restSlides =>
    let vendorSpend := inp.itSpend.filter fun r => r.vendorName == vendor
    let vendorContracts := inp.contracting.filter fun r => r.supplierName == vendor
    let vendorProjects := inp.sourcing.filter fun r => r.supplierName == vendor
    match vendorSpend with
    | [] => Except.error PptxError.indexError
    | row0 :: _ =>
      let chart := generate_it_spend_chart vendor row0
      let slide1 := add_image_to_slide slide0 chart.path
      let slide2 := generate_key_contracts_table slide1 vendorContracts
      let slide3 := generate_planned_projects_table slide2 vendorProjects
      let prs1 : Presentation := ⟨slide3 :: restSlides⟩
      let prs2 ←
        match List.lookup vendor inp.profiles with
        | some vd => replace_vendor_placeholders inp.today vendor vd prs1
        | none => Except.ok prs1
      Except.ok ((vendor ++ "_Vendor_Fact_Sheet.pptx", prs2), chart)

/-- The vendor loop: documents and chart files accumulate in order; the
first uncaught exception stops the loop, leaving the documents saved so
far and reporting the exception (there is no per-vendor handler in the
source). -/
def assembleLoop (inp : AssemblerInput) :
    List String → List (String × Presentation) → List ChartFile →
      (List (String × Presentation) × List ChartFile) × Option PptxError
  | [], docs, charts => ((docs.reverse, charts.reverse), none)
  | v :: vs, docs, charts =>
    match processVendor inp v with
    | Except.ok (doc, chart) => assembleLoop inp vs (doc :: docs) (chart :: charts)
    | Except.error e => ((docs.reverse, charts.reverse), some e)

/-- `generate_vendor_fact_sheets` (generator.py lines 410-482): process
every vendor of the roster in order. -/
def generate_vendor_fact_sheets (inp : AssemblerInput) :
    (List (String × Presentation) × List ChartFile) × Option PptxError :=
  assembleLoop inp inp.vendors [] []

/-- The visible text of a shape's frame, when the shape has one. -/
def shapeFrameText (sh : Shape) : Option String :=
  match sh with
  | Shape.textShape tf => some tf.text
  | _ => none

/-- The texts of every text frame of a presentation, in document order. -/
def presFrameTexts (p : Presentation) : List String :=
  p.slides.flatMap fun sl => sl.shapes.filterMap shapeFrameText

/-- The process-wide pseudo-random generator state of the `random` module:
the seed determines the infinite sequence `stream` of unit-interval draws
that successive calls to `random.uniform` consume, and `pos` counts the
draws consumed so far.  `simulate_historical_spend` reads this shared
state; it takes no generator of its own. -/
structure RandGen where
  stream : Nat → ℚ
  pos : Nat

/-- A raw cleaned IT-spend row before simulation. -/
structure SpendRow where
  vendorName : String
  category : String
  spend2024 : ℚ
deriving DecidableEq

/-- The simulated row for input row `r` at index `i` of `n`
(generator.py lines 98-101): the first `apply` pass draws one
`uniform(-0.2, 0.2)` per row (positions `pos .. pos+n-1` of the shared
stream, `uniform a b = a + (b-a)*random()`), the second pass draws the
next `n` (positions `pos+n .. pos+2n-1`);
`spend2023 = spend2024*(1+m1)` and `spend2022 = spend2023*(1+m2)`. -/
def simRowOf (g : RandGen) (n : Nat) (r : SpendRow) (i : Nat) : SimRow :=
  let m1 := -(1 / 5 : ℚ) + (2 / 5 : ℚ) * g.stream (g.pos + i)
  let m2 := -(1 / 5 : ℚ) + (2 / 5 : ℚ) * g.stream (g.pos + n + i)
  let s23 := r.spend2024 * (1 + m1)
  { vendorName := r.vendorName, category := r.category, spend2024 := r.spend2024,
    spend2023 := s23, spend2022 := s23 * (1 + m2) }

/-- `simulate_historical_spend` (generator.py lines 87-101), drawing from
the process-wide generator state and advancing it by the `2n` draws
consumed. -/
def simulate_historical_spend (rows : List SpendRow) (g : RandGen) :
    List SimRow × RandGen :=
  (List.zipWith (simRowOf g rows.length) rows (List.range rows.length),
   ⟨g.stream, g.pos + 2 * rows.length⟩)

/-- A frame on which the substitution engine raises: its visible text
contains the token, the token occurs in the first paragraph's text, and
that paragraph has no styled runs (its text comes from non-run children),
so reading `paragraphs[0].runs[0]` on generator.py line 342 raises an
IndexError. -/
def frameBad (s : String) (tf : TextFrame) : Bool :=
  strContains tf.text s &&
    (match tf.paragraphs with
     | [] => false
     | p0 :: _ => strContains p0.text s && p0.runs.isEmpty)

/-- A shape holding a frame on which the substitution engine raises. -/
def shapeBad (s : String) (sh : Shape) : Bool :=
  match sh with
  | Shape.textShape tf => frameBad s tf
  | _ => false

/-- A frame on which the substitution engine crashes in the
paragraph-clearing loop: the token occurs in the frame's text and in the
first paragraph's text, the first paragraph has a styled run, and the
frame has more than one paragraph, so line 346's nonexistent
`get_or_add_trPr` raises an AttributeError. -/
def frameCrash (s : String) (tf : TextFrame) : Bool :=
  strContains tf.text s &&
    (match tf.paragraphs with
     | [] => false
     | p0 :: rest => strContains p0.text s && !p0.runs.isEmpty && !rest.isEmpty)

/-- A shape holding a frame on which the clearing loop crashes. -/
def shapeCrash (s : String) (sh : Shape) : Bool :=
  match sh with
  | Shape.textShape tf => frameCrash s tf
  | _ => false

/-- A font with every attribute set, for concrete template elements. -/
def arial : Font :=
  ⟨some "Arial", some 18, some false, some false⟩

/-- A second, distinct font, for concrete template elements. -/
def georgia : Font :=
  ⟨some "Georgia", some 12, some true, some true⟩

/-- A paragraph holding a single styled run. -/
def mkPara (t : String) (f : Font) : Paragraph :=
  ⟨[Chunk.run ⟨t, f⟩]⟩

/-- A one-slide template with the three placeholder text frames the claims
exercise. -/
def tmplThreeTokens : Presentation :=
  ⟨[⟨[Shape.textShape ⟨[mkPara "[Timestamp]" arial]⟩,
      Shape.textShape ⟨[mkPara "[Vendor Name]" arial]⟩,
      Shape.textShape ⟨[mkPara "[Financials]" arial]⟩]⟩]⟩

/-- Assembler input with a vendor "Acme" that has spend data but no entry
in the profile store. -/
def inputNoProfile : AssemblerInput :=
  { template := tmplThreeTokens, vendors := ["Acme"],
    itSpend := [⟨"Acme", "IT Hardware", 100, 90, 85⟩],
    contracting := [], sourcing := [],
    profiles := [],
    today := "12.10.2026" }

/-- Assembler input whose roster starts with a vendor that appears in the
contracting report but has no IT-spend rows, followed by a healthy
vendor. -/
def inputEmptySlice : AssemblerInput :=
  { template := tmplThreeTokens, vendors := ["NoSpendVendor", "Acme"],
    itSpend := [⟨"Acme", "IT Hardware", 100, 90, 85⟩],
    contracting := [⟨"CW1", "Contract 1", "MSA", some ⟨2020, 1, 1⟩, some ⟨2025, 1, 1⟩, 10,
      "NoSpendVendor"⟩],
    sourcing := [], profiles := [], today := "12.10.2026" }

/-- A frame whose token occurs only in its second paragraph. -/
def frameTokenSecond : TextFrame :=
  ⟨[mkPara "First paragraph." arial, mkPara "Second has [VendorX] token." arial]⟩

/-- A presentation holding `frameTokenSecond`. -/
def prsTokenSecond : Presentation :=
  ⟨[⟨[Shape.textShape frameTokenSecond]⟩]⟩

/-- A frame with the token in its first paragraph and a second paragraph
of unrelated text in a different font. -/
def frameTwoParas : TextFrame :=
  ⟨[mkPara "Hello [X]" arial, mkPara "Keep me" georgia]⟩

/-- A presentation holding `frameTwoParas`. -/
def prsTwoParas : Presentation :=
  ⟨[⟨[Shape.textShape frameTwoParas]⟩]⟩

/-- A one-paragraph frame with a token, for the multi-line witness. -/
def frameOnePara : TextFrame :=
  ⟨[mkPara "A [X] B" arial]⟩

/-- A one-paragraph frame whose text comes from a field child, so the
paragraph contains the token but has no styled runs. -/
def fieldFrame : TextFrame :=
  ⟨[⟨[Chunk.fld "[X] lives here"]⟩]⟩

/-- A presentation whose only frame is `fieldFrame`. -/
def prsFieldOnly : Presentation :=
  ⟨[⟨[Shape.textShape fieldFrame]⟩]⟩

/-- A presentation in which a two-paragraph frame with the token in its
first paragraph precedes `fieldFrame`, so the clearing-loop crash on the
first frame pre-empts the zero-run IndexError of the second. -/
def prsCrashThenField : Presentation :=
  ⟨[⟨[Shape.textShape frameTwoParas, Shape.textShape fieldFrame]⟩]⟩

/-- Four project rows, one more than the Projects table cap. -/
def fourProjects : List ProjectRow :=
  [⟨"P1", "N1", "D1", 1, "V"⟩, ⟨"P2", "N2", "D2", 2, "V"⟩,
   ⟨"P3", "N3", "D3", 3, "V"⟩, ⟨"P4", "N4", "D4", 4, "V"⟩]

/-- A one-row spend dataset. -/
def oneSpendRow : List SpendRow :=
  [⟨"Acme", "IT Hardware", 100⟩]

/-- A generator state for the bounds witness: every unit draw is 1/2. -/
def genHalf : RandGen :=
  ⟨fun _ => 1 / 2, 0⟩

/-- A freshly seeded generator state whose first unit draw differs from
the later ones. -/
def genSeeded : RandGen :=
  ⟨fun n => if n == 0 then 0 else 1 / 2, 0⟩

/-- A generator state whose first two unit draws are 1/2. -/
def genPrefixA : RandGen :=
  ⟨fun n => if n < 2 then 1 / 2 else 0, 0⟩

/-- A generator state agreeing with `genPrefixA` on the first two draws
only. -/
def genPrefixB : RandGen :=
  ⟨fun n => if n < 2 then 1 / 2 else 7, 0⟩

end FactSheet

namespace FactSheet

/-- Splitting never yields zero parts. -/
lemma splitOnChar_ne_nil (c : Char) (l : List Char) : splitOnChar c l ≠ [] := by
  induction l with
  | nil => simp [splitOnChar]
  | cons x xs ih =>
    simp only [splitOnChar]
    split
    · simp
    · cases h : splitOnChar c xs with
      | nil => simp
      | cons a b => simp

/-- Joining the split parts with the separator restores the input. -/
lemma joinWith_splitOnChar (c : Char) (l : List Char) :
    joinWith c (splitOnChar c l) = l := by
  induction l with
  | nil => rfl
  | cons x xs ih =>
    by_cases hx : x = c
    · subst hx
      simp only [splitOnChar, if_pos rfl]
      cases hsp : splitOnChar x xs with
      | nil => exact absurd hsp (splitOnChar_ne_nil x xs)
      | cons a b =>
        rw [hsp] at ih
        simp [joinWith, ih]
    · simp only [splitOnChar, if_neg hx]
      cases hsp : splitOnChar c xs with
      | nil => exact absurd hsp (splitOnChar_ne_nil c xs)
      | cons a b =>
        rw [hsp] at ih
        cases b with
        | nil =>
          simp only [joinWith] at ih ⊢
          rw [ih]
        | cons b1 bt =>
          simp only [joinWith] at ih ⊢
          rw [List.cons_append, ih]

/-- The rebuilt children of split parts carry the joined text. -/
lemma chars_chunksOfParts (parts : List (List Char)) :
    Paragraph.chars ⟨chunksOfParts parts⟩ = joinWith brChar parts := by
  induction parts with
  | nil => rfl
  | cons p rest ih =>
    cases rest with
    | nil => simp [chunksOfParts, Paragraph.chars, chunkChars, joinWith]
    | cons q rt =>
      simp only [chunksOfParts, Paragraph.chars, List.flatMap_cons, chunkChars, joinWith] at ih ⊢
      rw [ih]
      simp

/-- Assigning a paragraph's text leaves exactly that text visible. -/
lemma setParagraphText_chars (t : String) :
    (setParagraphText t).chars = t.data := by
  rw [setParagraphText, chars_chunksOfParts, joinWith_splitOnChar]

/-- Restoring font attributes does not change the visible text. -/
lemma applyFontToRuns_chars (f : Font) (p : Paragraph) :
    (applyFontToRuns f p).chars = p.chars := by
  obtain ⟨cs⟩ := p
  induction cs with
  | nil => rfl
  | cons c rest ih =>
    cases c <;>
      simp only [applyFontToRuns, Paragraph.chars, List.map_cons, List.flatMap_cons,
        chunkChars] at ih ⊢ <;>
      rw [ih]

/-- After the restore loop every run carries the captured font. -/
lemma runs_applyFontToRuns (f : Font) (p : Paragraph) :
    ∀ r ∈ (applyFontToRuns f p).runs, r.font = f := by
  obtain ⟨cs⟩ := p
  induction cs with
  | nil => intro r hr; simp [applyFontToRuns, Paragraph.runs] at hr
  | cons c rest ih =>
    intro r hr
    cases c with
    | run r0 =>
      simp only [applyFontToRuns, Paragraph.runs, List.map_cons, List.filterMap_cons] at hr ih
      rcases List.mem_cons.mp hr with h | h
      · rw [h]
      · exact ih r h
    | br =>
      simp only [applyFontToRuns, Paragraph.runs, List.map_cons, List.filterMap_cons] at hr ih
      exact ih r hr
    | fld t =>
      simp only [applyFontToRuns, Paragraph.runs, List.map_cons, List.filterMap_cons] at hr ih
      exact ih r hr

/-- A replacement value always splits into at least one line. -/
lemma strLines_ne_nil (s : String) : strLines s ≠ [] := by
  simp only [strLines, ne_eq, List.map_eq_nil_iff]
  exact splitOnChar_ne_nil newlineChar s.data

/-- The substring test agrees with list-infix containment. -/
lemma strContains_iff (hay needle : String) :
    strContains hay needle = true ↔ needle.data <:+: hay.data := by
  rw [strContains, List.any_eq_true]
  constructor
  · rintro ⟨t, ht, hpre⟩
    rw [List.mem_tails] at ht
    rw [ List.isPrefixOf_iff_prefix] at hpre
    exact List.infix_iff_prefix_suffix.mpr ⟨t, hpre, ht⟩
  · intro h
    obtain ⟨t, hpre, hsuf⟩ := List.infix_iff_prefix_suffix.mp h
    exact ⟨t, (List.mem_tails _ _).mpr hsuf, List.isPrefixOf_iff_prefix.mpr hpre⟩

/-- A token contained in the first paragraph is contained in the frame's
visible text, which starts with that paragraph. -/
lemma frame_contains_of_first (tf : TextFrame) (p0 : Paragraph) (rest : List Paragraph)
    (hp : tf.paragraphs = p0 :: rest) (s : String)
    (h : strContains p0.text s = true) : strContains tf.text s = true := by
  rw [strContains_iff] at h ⊢
  have hpre : p0.chars <+: tf.chars := by
    rw [TextFrame.chars, hp]
    cases rest with
    | nil => simp [joinWith]
    | cons q rt => simp [joinWith]
  have hpre' : p0.text.data <+: tf.text.data := hpre
  exact h.trans (List.infix_iff_prefix_suffix.mpr ⟨tf.text.data, hpre', List.suffix_refl _⟩)

/-- A frame whose first paragraph lacks the token is returned unchanged. -/
lemma substFrame_skip (s r : String) (tf : TextFrame) (p0 : Paragraph)
    (rest : List Paragraph) (hp : tf.paragraphs = p0 :: rest)
    (hnot : strContains p0.text s = false) :
    substFrame s r tf = Except.ok tf := by
  by_cases hframe : strContains tf.text s = true
  · simp [substFrame, hp, hframe, hnot]
  · rw [Bool.not_eq_true] at hframe
    simp [substFrame, hframe]

/-- A first paragraph containing the token but holding no runs raises. -/
lemma substFrame_noRuns (s r : String) (tf : TextFrame) (p0 : Paragraph)
    (rest : List Paragraph) (hp : tf.paragraphs = p0 :: rest)
    (hfirst : strContains p0.text s = true) (hruns : p0.runs = []) :
    substFrame s r tf = Except.error PptxError.indexError := by
  have hframe := frame_contains_of_first tf p0 rest hp s hfirst
  simp [substFrame, hp, hframe, hfirst, hruns]

/-- A first paragraph containing the token with a styled run, in a frame
with a further paragraph, makes the clearing loop raise. -/
lemma substFrame_crash (s r : String) (tf : TextFrame) (p0 q : Paragraph)
    (rest : List Paragraph) (r0 : Run) (rs : List Run)
    (hp : tf.paragraphs = p0 :: q :: rest) (hfirst : strContains p0.text s = true)
    (hruns : p0.runs = r0 :: rs) :
    substFrame s r tf = Except.error PptxError.attributeError := by
  have hframe := frame_contains_of_first tf p0 (q :: rest) hp s hfirst
  simp [substFrame, hp, hframe, hfirst, hruns]

/-- The substitution result on a one-paragraph frame whose paragraph
contains the token and has a first run. -/
lemma substFrame_hit (s r : String) (tf : TextFrame) (p0 : Paragraph)
    (r0 : Run) (rs : List Run)
    (hp : tf.paragraphs = [p0]) (hfirst : strContains p0.text s = true)
    (hruns : p0.runs = r0 :: rs) :
    substFrame s r tf =
      Except.ok
        ⟨applyFontToRuns r0.font
            (setParagraphText (strReplace p0.text s ((strLines r).headD ""))) ::
          ((strLines r).drop 1).map fun line => Paragraph.mk [Chunk.run ⟨line, r0.font⟩]⟩ := by
  have hframe := frame_contains_of_first tf p0 [] hp s hfirst
  simp [substFrame, hp, hframe, hfirst, hruns]

/-- A zero-run hit frame raises the IndexError. -/
lemma substFrame_of_bad (s r : String) (tf : TextFrame)
    (hfb : frameBad s tf = true) :
    substFrame s r tf = Except.error PptxError.indexError := by
  rw [frameBad, Bool.and_eq_true] at hfb
  cases hp : tf.paragraphs with
  | nil => rw [hp] at hfb; simp at hfb
  | cons p0 prest =>
    rw [hp] at hfb
    obtain ⟨-, hfb2⟩ := hfb
    rw [Bool.and_eq_true] at hfb2
    exact substFrame_noRuns s r tf p0 prest hp hfb2.1
      (List.isEmpty_eq_true.mp hfb2.2)

/-- The AttributeError arises only on clearing-loop crash frames. -/
lemma frameCrash_of_attr (s r : String) (tf : TextFrame)
    (h : substFrame s r tf = Except.error PptxError.attributeError) :
    frameCrash s tf = true := by
  rw [substFrame] at h
  by_cases h1 : strContains tf.text s = true
  · rw [if_pos h1] at h
    cases hp : tf.paragraphs with
    | nil => rw [hp] at h; simp at h
    | cons p0 rest =>
      rw [hp] at h
      by_cases h2 : strContains p0.text s = true
      · simp only [h2, if_true] at h
        cases hr : p0.runs with
        | nil => rw [hr] at h; simp at h
        | cons r0 rs =>
          rw [hr] at h
          cases rest with
          | nil => simp at h
          | cons q rest' =>
            simp [frameCrash, h1, hp, h2, hr]
      · rw [Bool.not_eq_true] at h2
        simp only [h2, Bool.false_eq_true, if_false] at h
        simp at h
  · rw [Bool.not_eq_true] at h1
    simp only [h1, Bool.false_eq_true, if_false] at h
    simp at h

/-- An AttributeError from a shape pins a crash frame in that shape. -/
lemma shapeCrash_of_attr (s r : String) (sh : Shape)
    (h : substShape s r sh = Except.error PptxError.attributeError) :
    shapeCrash s sh = true := by
  cases sh with
  | textShape tf =>
    cases hsf : substFrame s r tf with
    | ok v => rw [substShape, hsf] at h; simp [Except.map] at h
    | error e =>
      rw [substShape, hsf] at h
      cases e with
      | indexError => simp [Except.map] at h
      | attributeError =>
        have hc := frameCrash_of_attr s r tf hsf
        simp [shapeCrash, hc]
  | picture p => simp [substShape] at h
  | table t => simp [substShape] at h

/-- An AttributeError from a shape traversal pins a crash shape in it. -/
lemma substShapes_attr_imp (s r : String) (shapes : List Shape)
    (h : substShapes s r shapes = Except.error PptxError.attributeError) :
    ∃ x ∈ shapes, shapeCrash s x = true := by
  induction shapes with
  | nil => simp [substShapes] at h
  | cons a rest ih =>
    cases ha : substShape s r a with
    | error e =>
      simp only [substShapes, ha] at h
      have h' : Except.error (α := List Shape) e
          = Except.error (α := List Shape) PptxError.attributeError := h
      rw [Except.error.injEq] at h'
      subst h'
      exact ⟨a, List.mem_cons_self a rest, shapeCrash_of_attr s r a ha⟩
    | ok a' =>
      simp only [substShapes, ha] at h
      cases hr : substShapes s r rest with
      | ok l =>
        rw [hr] at h
        have h' : Except.ok (ε := PptxError) (a' :: l)
            = Except.error (α := List Shape) PptxError.attributeError := h
        cases h'
      | error e =>
        rw [hr] at h
        have h' : Except.error (α := List Shape) e
            = Except.error (α := List Shape) PptxError.attributeError := h
        rw [Except.error.injEq] at h'
        subst h'
        obtain ⟨x, hx, hcx⟩ := ih hr
        exact ⟨x, List.mem_cons_of_mem a hx, hcx⟩

/-- A zero-run hit shape makes the shape traversal fail with some
exception. -/
lemma substShapes_some_error (s r : String) (shapes : List Shape) (sh : Shape)
    (hmem : sh ∈ shapes) (hbad : shapeBad s sh = true) :
    ∃ e, substShapes s r shapes = Except.error e := by
  induction shapes with
  | nil => cases hmem
  | cons a rest ih =>
    rcases List.mem_cons.mp hmem with heq | hmem'
    · subst heq
      cases sh with
      | textShape tf =>
        have hfr := substFrame_of_bad s r tf hbad
        exact ⟨PptxError.indexError, by simp only [substShapes, substShape, hfr]; rfl⟩
      | picture p => simp [shapeBad] at hbad
      | table t => simp [shapeBad] at hbad
    · cases h : substShape s r a with
      | error e => exact ⟨e, by simp only [substShapes, h]; rfl⟩
      | ok a' =>
        obtain ⟨e, he⟩ := ih hmem'
        exact ⟨e, by simp only [substShapes, h, he]; rfl⟩

/-- With no crash shape present, a zero-run hit shape makes the shape
traversal fail with exactly the IndexError. -/
lemma substShapes_index (s r : String) (shapes : List Shape) (sh : Shape)
    (hmem : sh ∈ shapes) (hbad : shapeBad s sh = true)
    (hnocrash : ∀ x ∈ shapes, shapeCrash s x = false) :
    substShapes s r shapes = Except.error PptxError.indexError := by
  induction shapes with
  | nil => cases hmem
  | cons a rest ih =>
    rcases List.mem_cons.mp hmem with heq | hmem'
    · subst heq
      cases sh with
      | textShape tf =>
        have hfr := substFrame_of_bad s r tf hbad
        simp only [substShapes, substShape, hfr]
        rfl
      | picture p => simp [shapeBad] at hbad
      | table t => simp [shapeBad] at hbad
    · have hnocrash' : ∀ x ∈ rest, shapeCrash s x = false := fun x hx =>
        hnocrash x (List.mem_cons_of_mem a hx)
      cases h : substShape s r a with
      | error e =>
        cases e with
        | indexError =>
          simp only [substShapes, h]
          rfl
        | attributeError =>
          have hca := shapeCrash_of_attr s r a h
          have := hnocrash a (List.mem_cons_self a rest)
          rw [this] at hca
          cases hca
      | ok a' =>
        simp only [substShapes, h, ih hmem' hnocrash']
        rfl

/-- A zero-run hit shape on any slide makes the slide traversal fail with
some exception. -/
lemma substSlides_some_error (s r : String) (slides : List Slide) (sl : Slide)
    (hmem : sl ∈ slides) (sh : Shape) (hsh : sh ∈ sl.shapes)
    (hbad : shapeBad s sh = true) :
    ∃ e, substSlides s r slides = Except.error e := by
  induction slides with
  | nil => cases hmem
  | cons a rest ih =>
    rcases List.mem_cons.mp hmem with heq | hmem'
    · subst heq
      obtain ⟨e, he⟩ := substShapes_some_error s r sl.shapes sh hsh hbad
      exact ⟨e, by simp only [substSlides, he]; rfl⟩
    · cases h : substShapes s r a.shapes with
      | error e => exact ⟨e, by simp only [substSlides, h]; rfl⟩
      | ok a' =>
        obtain ⟨e, he⟩ := ih hmem'
        exact ⟨e, by simp only [substSlides, h, he]; rfl⟩

/-- With no crash shape anywhere, a zero-run hit shape makes the slide
traversal fail with exactly the IndexError. -/
lemma substSlides_index (s r : String) (slides : List Slide) (sl : Slide)
    (hmem : sl ∈ slides) (sh : Shape) (hsh : sh ∈ sl.shapes)
    (hbad : shapeBad s sh = true)
    (hnocrash : ∀ t ∈ slides, ∀ x ∈ t.shapes, shapeCrash s x = false) :
    substSlides s r slides = Except.error PptxError.indexError := by
  induction slides with
  | nil => cases hmem
  | cons a rest ih =>
    rcases List.mem_cons.mp hmem with heq | hmem'
    · subst heq
      have hidx := substShapes_index s r sl.shapes sh hsh hbad
        (hnocrash sl (List.mem_cons_self sl rest))
      simp only [substSlides, hidx]
      rfl
    · have hnocrash' : ∀ t ∈ rest, ∀ x ∈ t.shapes, shapeCrash s x = false := fun t ht =>
        hnocrash t (List.mem_cons_of_mem a ht)
      cases h : substShapes s r a.shapes with
      | error e =>
        cases e with
        | indexError =>
          simp only [substSlides, h]
          rfl
        | attributeError =>
          obtain ⟨x, hx, hcx⟩ := substShapes_attr_imp s r a.shapes h
          have := hnocrash a (List.mem_cons_self a rest) x hx
          rw [this] at hcx
          cases hcx
      | ok a' =>
        simp only [substSlides, h, ih hmem' hnocrash']
        rfl

/-- Appending the chart picture and the two tables to a slide leaves its
text frames untouched. -/
lemma tables_preserve_frame_texts (sl : Slide) (img : String)
    (cdata : List ContractRow) (pdata : List ProjectRow) :
    (generate_planned_projects_table
        (generate_key_contracts_table (add_image_to_slide sl img) cdata) pdata).shapes.filterMap
        shapeFrameText
      = sl.shapes.filterMap shapeFrameText := by
  simp [generate_planned_projects_table, generate_key_contracts_table, add_image_to_slide,
    List.filterMap_append, shapeFrameText]

end FactSheet

namespace FactSheet

/-- Claim C1, counterexample: vendor "Acme" has spend data but no entry in
the profile store; the run succeeds and produces Acme's document, yet every
placeholder — including `[Timestamp]` and `[Vendor Name]`, which the claim
says are substituted, and `[Financials]`, which the claim says becomes a
"data not available" variant — remains the literal token, because
`generate_vendor_fact_sheets` calls `replace_vendor_placeholders` only for
vendors present in the profile store. -/
theorem assembler_no_profile_counterexample :
    (generate_vendor_fact_sheets inputNoProfile).2 = none ∧
    ((generate_vendor_fact_sheets inputNoProfile).1.1.map Prod.fst)
      = ["Acme_Vendor_Fact_Sheet.pptx"] ∧
    presFrameTexts ((generate_vendor_fact_sheets inputNoProfile).1.1.headD ("", ⟨[]⟩)).2
      = ["[Timestamp]", "[Vendor Name]", "[Financials]"] := by
  refine ⟨?_, ?_, ?_⟩ <;> decide

/-- Claim C1, amended: a vendor with no entry in the profile store (and a
nonempty spend slice) still produces its output document, but the Document
Assembler performs no placeholder substitution for it at all — the
document's text frames are exactly the template's, so `[Timestamp]`,
`[Vendor Name]` and `[Financials]` all remain literal tokens. -/
theorem assembler_no_profile_no_substitution (inp : AssemblerInput) (v : String)
    (hnoprof : List.lookup v inp.profiles = none)
    (hspend : inp.itSpend.filter (fun row => row.vendorName == v) ≠ [])
    (hslides : inp.template.slides ≠ []) :
    ∃ prs chart,
      processVendor inp v = Except.ok ((v ++ "_Vendor_Fact_Sheet.pptx", prs), chart) ∧
      presFrameTexts prs = presFrameTexts inp.template := by
  obtain ⟨s0, srest, hs⟩ := List.exists_cons_of_ne_nil hslides
  obtain ⟨row0, rrest, hr⟩ := List.exists_cons_of_ne_nil hspend
  refine ⟨⟨generate_planned_projects_table
      (generate_key_contracts_table
        (add_image_to_slide s0 ("plots/" ++ v ++ "_spend_chart.png"))
        (inp.contracting.filter fun r => r.supplierName == v))
      (inp.sourcing.filter fun r => r.supplierName == v) :: srest⟩,
    generate_it_spend_chart v row0, ?_, ?_⟩
  · simp only [processVendor, hs, hr, hnoprof, generate_it_spend_chart]
    rfl
  · rw [presFrameTexts, presFrameTexts, hs]
    simp only [List.flatMap_cons]
    rw [tables_preserve_frame_texts]

/-- Claim C1, witness for the amended theorem at the concrete input. -/
theorem assembler_no_profile_no_substitution_witness :
    ∃ prs chart,
      processVendor inputNoProfile "Acme"
        = Except.ok (("Acme" ++ "_Vendor_Fact_Sheet.pptx", prs), chart) ∧
      presFrameTexts prs = presFrameTexts inputNoProfile.template :=
  assembler_no_profile_no_substitution inputNoProfile "Acme" rfl (by decide) (by decide)

/-- Claim C2: a roster vendor with an empty spend slice makes
`generate_vendor_fact_sheets` raise an uncaught IndexError at
`vendor_spend.iloc[0]`, aborting the whole batch — the healthy vendor
"Acme" later in the roster is never processed and no document is saved,
contradicting the claimed skip-with-warning-and-continue behavior. -/
theorem empty_spend_slice_aborts_run :
    (generate_vendor_fact_sheets inputEmptySlice).2 = some PptxError.indexError ∧
    (generate_vendor_fact_sheets inputEmptySlice).1.1 = [] := by
  constructor <;> decide

/-- Claim C3, counterexample: the frame's visible text contains the token
`[VendorX]`, but only in its second paragraph; the engine leaves the whole
presentation unchanged, so the element still contains the literal token —
there is no fallback substitution over the full element text. -/
theorem token_outside_first_paragraph_counterexample :
    strContains frameTokenSecond.text "[VendorX]" = true ∧
    search_and_replace "[VendorX]" "ReplacementY" prsTokenSecond = Except.ok prsTokenSecond := by
  constructor
  · decide
  · decide

/-- Claim C3, amended: the engine substitutes only in elements whose FIRST
paragraph's text contains the token; an element whose token occurs only
outside the first paragraph is returned unchanged, literal token and
all. -/
theorem token_outside_first_paragraph_skipped (s r : String) (tf : TextFrame)
    (p0 : Paragraph) (rest : List Paragraph) (hp : tf.paragraphs = p0 :: rest)
    (hnot : strContains p0.text s = false) :
    substFrame s r tf = Except.ok tf :=
  substFrame_skip s r tf p0 rest hp hnot

/-- Claim C3, witness for the amended theorem at the concrete frame. -/
theorem token_outside_first_paragraph_skipped_witness :
    substFrame "[VendorX]" "ReplacementY" frameTokenSecond = Except.ok frameTokenSecond :=
  token_outside_first_paragraph_skipped "[VendorX]" "ReplacementY" frameTokenSecond
    (mkPara "First paragraph." arial) [mkPara "Second has [VendorX] token." arial]
    rfl (by decide)

/-- Claim C4, counterexample: substituting the single-line bracket-free
value "Y" into a frame with a second paragraph of unrelated text does not
return the element with the other text byte-identical — the
paragraph-clearing loop's first iteration calls a method that does not
exist on the text body and the engine raises an AttributeError instead of
completing. -/
theorem single_line_subst_counterexample :
    (frameTwoParas.paragraphs.map Paragraph.text) = ["Hello [X]", "Keep me"] ∧
    search_and_replace "[X]" "Y" prsTwoParas = Except.error PptxError.attributeError := by
  constructor
  · decide
  · decide

/-- Claim C4, amended: an element whose first paragraph lacks the token is
returned byte-identical; for an element whose first paragraph contains the
token and has a first run, a frame with any further paragraph raises an
AttributeError in the clearing loop before substituting, and only a
one-paragraph frame completes — its paragraph rewritten as fresh runs
holding the token-replaced text with the first run's font attributes. -/
theorem single_line_subst_effect (s r : String) (tf : TextFrame) (p0 : Paragraph)
    (rest : List Paragraph) (hp : tf.paragraphs = p0 :: rest) :
    (strContains p0.text s = false → substFrame s r tf = Except.ok tf) ∧
    (∀ r0 rs, p0.runs = r0 :: rs → strContains p0.text s = true → rest ≠ [] →
      substFrame s r tf = Except.error PptxError.attributeError) ∧
    (∀ r0 rs, p0.runs = r0 :: rs → strContains p0.text s = true → rest = [] →
      strLines r = [r] →
      substFrame s r tf =
        Except.ok ⟨[applyFontToRuns r0.font (setParagraphText (strReplace p0.text s r))]⟩) := by
  refine ⟨substFrame_skip s r tf p0 rest hp, ?_, ?_⟩
  · intro r0 rs hruns hfirst hrest
    obtain ⟨q, rest', hq⟩ := List.exists_cons_of_ne_nil hrest
    subst hq
    exact substFrame_crash s r tf p0 q rest' r0 rs hp hfirst hruns
  · intro r0 rs hruns hfirst hrest hsingle
    subst hrest
    rw [substFrame_hit s r tf p0 r0 rs hp hfirst hruns, hsingle]
    simp

/-- Claim C4, witness for the amended theorem at a one-paragraph frame. -/
theorem single_line_subst_effect_witness :
    substFrame "[X]" "Y" frameOnePara =
      Except.ok ⟨[applyFontToRuns arial
        (setParagraphText (strReplace (mkPara "A [X] B" arial).text "[X]" "Y"))]⟩ :=
  (single_line_subst_effect "[X]" "Y" frameOnePara (mkPara "A [X] B" arial) [] rfl).2.2
    ⟨"A [X] B", arial⟩ [] (by decide) (by decide) rfl (by decide)

/-- Claim C5, counterexample: an element with the token in its first
paragraph but holding a second paragraph crashes with an AttributeError in
the clearing loop when given a two-line value — it does not yield N
paragraphs of replacement text. -/
theorem multiline_subst_counterexample :
    strContains (frameTwoParas.paragraphs.headD ⟨[]⟩).text "[X]" = true ∧
    (strLines "L1\nL2").length = 2 ∧
    substFrame "[X]" "L1\nL2" frameTwoParas = Except.error PptxError.attributeError := by
  refine ⟨?_, ?_, ?_⟩ <;> decide

/-- Claim C5, amended: only for an element consisting of exactly one
paragraph (containing the token, with a first styled run) does
substituting an N-line value yield exactly N paragraphs — the first line
replacing the token in place, each remaining line an appended paragraph,
every run carrying the original first run's font name, size, bold and
italic; an element with more than one paragraph instead raises an
AttributeError in the clearing loop. -/
theorem multiline_subst_paragraphs (s r : String) (tf : TextFrame) (p0 : Paragraph)
    (r0 : Run) (rs : List Run)
    (hp : tf.paragraphs = [p0]) (hruns : p0.runs = r0 :: rs)
    (hfirst : strContains p0.text s = true) :
    ∃ tf' : TextFrame, substFrame s r tf = Except.ok tf' ∧
      tf'.paragraphs.length = (strLines r).length ∧
      (tf'.paragraphs.map Paragraph.text).headD "" =
        strReplace p0.text s ((strLines r).headD "") ∧
      (tf'.paragraphs.map Paragraph.text).drop 1 = (strLines r).drop 1 ∧
      ∀ p ∈ tf'.paragraphs, ∀ rn ∈ p.runs, rn.font = r0.font := by
  refine ⟨_, substFrame_hit s r tf p0 r0 rs hp hfirst hruns, ?_, ?_, ?_, ?_⟩
  · cases hl : strLines r with
    | nil => exact absurd hl (strLines_ne_nil r)
    | cons l0 ls => simp [hl]
  · simp [Paragraph.text, applyFontToRuns_chars, setParagraphText_chars]
  · cases hl : strLines r with
    | nil => exact absurd hl (strLines_ne_nil r)
    | cons l0 ls =>
      simp only [hl, List.drop_succ_cons, List.drop_zero, List.map_cons, List.map_map]
      have hid : (Paragraph.text ∘ fun line => Paragraph.mk [Chunk.run ⟨line, r0.font⟩]) = id := by
        funext line
        simp [Paragraph.text, Paragraph.chars, chunkChars]
      rw [hid, List.map_id]
  · intro p hp' rn hrn
    rcases List.mem_cons.mp hp' with heq | hmem
    · subst heq
      exact runs_applyFontToRuns r0.font _ rn hrn
    · obtain ⟨line, -, hline⟩ := List.mem_map.mp hmem
      subst hline
      simp only [Paragraph.runs, List.filterMap_cons, List.filterMap_nil] at hrn
      rcases List.mem_cons.mp hrn with h | h
      · rw [h]
      · simp at h

/-- Claim C5, witness at a concrete one-paragraph frame and the three-line
value "L1\nL2\nL3". -/
theorem multiline_subst_paragraphs_witness :
    ∃ tf' : TextFrame, substFrame "[X]" "L1\nL2\nL3" frameOnePara = Except.ok tf' ∧
      tf'.paragraphs.length = (strLines "L1\nL2\nL3").length ∧
      (tf'.paragraphs.map Paragraph.text).headD "" =
        strReplace (mkPara "A [X] B" arial).text "[X]" ((strLines "L1\nL2\nL3").headD "") ∧
      (tf'.paragraphs.map Paragraph.text).drop 1 = (strLines "L1\nL2\nL3").drop 1 ∧
      ∀ p ∈ tf'.paragraphs, ∀ rn ∈ p.runs, rn.font = Run.font ⟨"A [X] B", arial⟩ :=
  multiline_subst_paragraphs "[X]" "L1\nL2\nL3" frameOnePara (mkPara "A [X] B" arial)
    ⟨"A [X] B", arial⟩ [] rfl (by decide) (by decide)

/-- Claim C6, counterexample: a contract row with an effective date of 2020
and a missing expiration date renders its Term cell as "2020-nan", not the
"N/A" the claim requires when either date is missing — the code's guard
tests only the effective date. -/
theorem term_cell_counterexample :
    termCell (some ⟨2020, 1, 1⟩) none ≠ "N/A" ∧
    termCell (some ⟨2020, 1, 1⟩) none = "2020-nan" := by
  constructor <;> decide

/-- Claim C6, amended: the Term cell is "{startYear}-{endYear}" when both
dates are present and "N/A" when the EFFECTIVE date is missing; when only
the expiration date is missing it is "{startYear}-nan" (the missing date's
year attribute renders as nan).  Rendering never fails on a missing
date. -/
theorem term_cell_format :
    (∀ d1 d2 : Date, termCell (some d1) (some d2) = toString d1.year ++ "-" ++ toString d2.year) ∧
    (∀ x : Option Date, termCell none x = "N/A") ∧
    (∀ d : Date, termCell (some d) none = toString d.year ++ "-nan") := by
  refine ⟨fun d1 d2 => rfl, fun x => rfl, fun d => ?_⟩
  show toString d.year ++ "-" ++ yearStr none = toString d.year ++ "-nan"
  rw [String.append_assoc]
  rfl

/-- Claim C7: both table variants emit exactly one all-blank data row for
empty data, exactly the cap (4 for contracts, 3 for projects) rows — the
first cap input rows in order — when the input exceeds the cap, and
exactly one row per input row (no truncation of the count) when the input
is within the cap. -/
theorem table_row_count_spec (cd : List ContractRow) (pd : List ProjectRow) :
    ((cd = [] → (contractsTable cd).dataRows = [List.replicate 6 ""]) ∧
     (4 < cd.length →
        (contractsTable cd).dataRows = (cd.take 4).map contractCells ∧
        (contractsTable cd).dataRows.length = 4) ∧
     (cd ≠ [] → cd.length ≤ 4 →
        (contractsTable cd).dataRows = cd.map contractCells ∧
        (contractsTable cd).dataRows.length = cd.length)) ∧
    ((pd = [] → (projectsTable pd).dataRows = [List.replicate 4 ""]) ∧
     (3 < pd.length →
        (projectsTable pd).dataRows = (pd.take 3).map projectCells ∧
        (projectsTable pd).dataRows.length = 3) ∧
     (pd ≠ [] → pd.length ≤ 3 →
        (projectsTable pd).dataRows = pd.map projectCells ∧
        (projectsTable pd).dataRows.length = pd.length)) := by
  refine ⟨⟨?_, ?_, ?_⟩, ?_, ?_, ?_⟩
  · intro h
    subst h
    rfl
  · intro h
    have hne : cd ≠ [] := List.ne_nil_of_length_pos (by omega)
    have hie : cd.isEmpty = false := List.isEmpty_eq_false.mpr hne
    constructor
    · simp [contractsTable, hie, Nat.min_eq_right (le_of_lt h)]
    · simp only [contractsTable, hie, Bool.false_eq_true, if_neg, ite_false,
        List.length_map, List.length_take]
      omega
  · intro hne hle
    have hie : cd.isEmpty = false := List.isEmpty_eq_false.mpr hne
    have hmin : min cd.length 4 = cd.length := Nat.min_eq_left hle
    constructor
    · simp [contractsTable, hie, hmin, List.take_length]
    · simp [contractsTable, hie, hmin, List.take_length]
  · intro h
    subst h
    rfl
  · intro h
    have hne : pd ≠ [] := List.ne_nil_of_length_pos (by omega)
    have hie : pd.isEmpty = false := List.isEmpty_eq_false.mpr hne
    constructor
    · simp [projectsTable, hie, Nat.min_eq_right (le_of_lt h)]
    · simp only [projectsTable, hie, Bool.false_eq_true, if_neg, ite_false,
        List.length_map, List.length_take]
      omega
  · intro hne hle
    have hie : pd.isEmpty = false := List.isEmpty_eq_false.mpr hne
    have hmin : min pd.length 3 = pd.length := Nat.min_eq_left hle
    constructor
    · simp [projectsTable, hie, hmin, List.take_length]
    · simp [projectsTable, hie, hmin, List.take_length]

/-- Claim C7, witness: the empty contracts table and an over-cap projects
table at concrete inputs. -/
theorem table_row_count_spec_witness :
    (contractsTable []).dataRows = [List.replicate 6 ""] ∧
    (projectsTable fourProjects).dataRows = (fourProjects.take 3).map projectCells ∧
    (projectsTable fourProjects).dataRows.length = 3 :=
  ⟨(table_row_count_spec [] fourProjects).1.1 rfl,
   ((table_row_count_spec [] fourProjects).2.2.1 (by decide)).1,
   ((table_row_count_spec [] fourProjects).2.2.1 (by decide)).2⟩

/-- Claim C8: for every spend row with nonnegative 2024 spend, the
simulator's outputs satisfy spend2023 = spend2024·(1+m1) and spend2022 =
spend2023·(1+m2) for two multipliers in [-1/5, 1/5] drawn from the
generator's unit-interval stream, hence spend2023 lies in
spend2024·[4/5, 6/5] and spend2022 in spend2023·[4/5, 6/5]. -/
theorem simulated_spend_bounds (rows : List SpendRow) (g : RandGen) (i : Nat)
    (hstream : ∀ n, 0 ≤ g.stream n ∧ g.stream n < 1)
    (hi : i < rows.length)
    (hi2 : i < ((simulate_historical_spend rows g).1).length)
    (hnn : 0 ≤ (rows.get ⟨i, hi⟩).spend2024) :
    ∃ m1 m2 : ℚ, -(1 / 5) ≤ m1 ∧ m1 ≤ 1 / 5 ∧ -(1 / 5) ≤ m2 ∧ m2 ≤ 1 / 5 ∧
      (((simulate_historical_spend rows g).1).get ⟨i, hi2⟩).spend2024
        = (rows.get ⟨i, hi⟩).spend2024 ∧
      (((simulate_historical_spend rows g).1).get ⟨i, hi2⟩).spend2023
        = (rows.get ⟨i, hi⟩).spend2024 * (1 + m1) ∧
      (((simulate_historical_spend rows g).1).get ⟨i, hi2⟩).spend2022
        = (((simulate_historical_spend rows g).1).get ⟨i, hi2⟩).spend2023 * (1 + m2) ∧
      (4 / 5) * (rows.get ⟨i, hi⟩).spend2024
        ≤ (((simulate_historical_spend rows g).1).get ⟨i, hi2⟩).spend2023 ∧
      (((simulate_historical_spend rows g).1).get ⟨i, hi2⟩).spend2023
        ≤ (6 / 5) * (rows.get ⟨i, hi⟩).spend2024 ∧
      (4 / 5) * (((simulate_historical_spend rows g).1).get ⟨i, hi2⟩).spend2023
        ≤ (((simulate_historical_spend rows g).1).get ⟨i, hi2⟩).spend2022 ∧
      (((simulate_historical_spend rows g).1).get ⟨i, hi2⟩).spend2022
        ≤ (6 / 5) * (((simulate_historical_spend rows g).1).get ⟨i, hi2⟩).spend2023 := by
  have hget : ((simulate_historical_spend rows g).1).get ⟨i, hi2⟩
      = simRowOf g rows.length (rows.get ⟨i, hi⟩) i := by
    rw [List.get_eq_getElem, List.get_eq_getElem]
    simp only [simulate_historical_spend]
    rw [List.getElem_zipWith, List.getElem_range]
  obtain ⟨h1a, h1b⟩ := hstream (g.pos + i)
  obtain ⟨h2a, h2b⟩ := hstream (g.pos + rows.length + i)
  refine ⟨-(1 / 5) + (2 / 5) * g.stream (g.pos + i),
    -(1 / 5) + (2 / 5) * g.stream (g.pos + rows.length + i),
    by linarith, by linarith, by linarith, by linarith, ?_, ?_, ?_, ?_, ?_, ?_, ?_⟩ <;>
    rw [hget] <;> simp only [simRowOf]
  · nlinarith [mul_nonneg hnn h1a]
  · nlinarith [mul_le_mul_of_nonneg_left h1b.le hnn]
  · have h23 : 0 ≤ (rows.get ⟨i, hi⟩).spend2024 *
        (1 + (-(1 / 5) + (2 / 5) * g.stream (g.pos + i))) := by
      nlinarith [mul_nonneg hnn h1a]
    nlinarith [mul_nonneg h23 h2a]
  · have h23 : 0 ≤ (rows.get ⟨i, hi⟩).spend2024 *
        (1 + (-(1 / 5) + (2 / 5) * g.stream (g.pos + i))) := by
      nlinarith [mul_nonneg hnn h1a]
    nlinarith [mul_le_mul_of_nonneg_left h2b.le h23]

/-- Claim C8, witness at a one-row dataset and the constant-1/2 stream. -/
theorem simulated_spend_bounds_witness :
    ∃ m1 m2 : ℚ, -(1 / 5) ≤ m1 ∧ m1 ≤ 1 / 5 ∧ -(1 / 5) ≤ m2 ∧ m2 ≤ 1 / 5 ∧
      (((simulate_historical_spend oneSpendRow genHalf).1).get ⟨0, by decide⟩).spend2024
        = (oneSpendRow.get ⟨0, by decide⟩).spend2024 ∧
      (((simulate_historical_spend oneSpendRow genHalf).1).get ⟨0, by decide⟩).spend2023
        = (oneSpendRow.get ⟨0, by decide⟩).spend2024 * (1 + m1) ∧
      (((simulate_historical_spend oneSpendRow genHalf).1).get ⟨0, by decide⟩).spend2022
        = (((simulate_historical_spend oneSpendRow genHalf).1).get ⟨0, by decide⟩).spend2023
            * (1 + m2) ∧
      (4 / 5) * (oneSpendRow.get ⟨0, by decide⟩).spend2024
        ≤ (((simulate_historical_spend oneSpendRow genHalf).1).get ⟨0, by decide⟩).spend2023 ∧
      (((simulate_historical_spend oneSpendRow genHalf).1).get ⟨0, by decide⟩).spend2023
        ≤ (6 / 5) * (oneSpendRow.get ⟨0, by decide⟩).spend2024 ∧
      (4 / 5) * (((simulate_historical_spend oneSpendRow genHalf).1).get ⟨0, by decide⟩).spend2023
        ≤ (((simulate_historical_spend oneSpendRow genHalf).1).get ⟨0, by decide⟩).spend2022 ∧
      (((simulate_historical_spend oneSpendRow genHalf).1).get ⟨0, by decide⟩).spend2022
        ≤ (6 / 5) *
            (((simulate_historical_spend oneSpendRow genHalf).1).get ⟨0, by decide⟩).spend2023 :=
  simulated_spend_bounds oneSpendRow genHalf 0
    (fun n => by constructor <;> norm_num [genHalf]) (by decide) (by decide)
    (by norm_num [oneSpendRow])

/-- Claim C9, counterexample: the simulator draws from the process-wide
shared generator it was given no handle to reseed; after one seeding, a
second run picks up where the first left off and produces different output
values on the same dataset — the claimed same-seed reproducibility fails
under the code's actual interface. -/
theorem shared_generator_not_reproducible :
    (simulate_historical_spend oneSpendRow
        ((simulate_historical_spend oneSpendRow genSeeded).2)).1
      ≠ (simulate_historical_spend oneSpendRow genSeeded).1 := by
  simp only [simulate_historical_spend, simRowOf, oneSpendRow, genSeeded, List.length_cons,
    List.length_nil, List.range_succ, List.range_zero, List.nil_append,
    List.zipWith_cons_cons, List.zipWith_nil_right]
  intro h
  rw [List.cons.injEq] at h
  have h1 := h.1
  rw [SimRow.mk.injEq] at h1
  have h2 := h1.2.2.2.1
  norm_num at h2

/-- Claim C9, amended: the simulator reads the process-wide generator
state rather than an injected generator; its output is a deterministic
function of the dataset and of the 2n draws it consumes from that state,
so two runs started from generator states that agree on those draws
produce identical outputs (while two successive runs after a single
seeding differ, the first run having advanced the shared state). -/
theorem simulate_depends_only_on_consumed_draws (rows : List SpendRow) (g1 g2 : RandGen)
    (hpos : g1.pos = g2.pos)
    (hagree : ∀ k, k < 2 * rows.length → g1.stream (g1.pos + k) = g2.stream (g2.pos + k)) :
    (simulate_historical_spend rows g1).1 = (simulate_historical_spend rows g2).1 := by
  apply List.ext_getElem
  · simp [simulate_historical_spend]
  · intro n h1 h2
    simp only [simulate_historical_spend] at h1 h2 ⊢
    rw [List.getElem_zipWith, List.getElem_zipWith, List.getElem_range]
    have hn : n < rows.length := by
      simp only [List.length_zipWith, List.length_range, Nat.min_self] at h1
      exact h1
    have e1 := hagree n (by omega)
    have e2 := hagree (rows.length + n) (by omega)
    have e2' : g1.stream (g1.pos + rows.length + n) = g2.stream (g2.pos + rows.length + n) := by
      rw [Nat.add_assoc, Nat.add_assoc]
      exact e2
    simp only [simRowOf, e1, e2']

/-- Claim C9, witness for the amended theorem: two generator states
agreeing on the first two draws yield identical outputs. -/
theorem simulate_depends_only_on_consumed_draws_witness :
    (simulate_historical_spend oneSpendRow genPrefixA).1
      = (simulate_historical_spend oneSpendRow genPrefixB).1 :=
  simulate_depends_only_on_consumed_draws oneSpendRow genPrefixA genPrefixB rfl (by
    intro k hk
    have hk2 : k < 2 := by simpa [oneSpendRow] using hk
    simp [genPrefixA, genPrefixB, Nat.zero_add, hk2])

/-- Claim C10, counterexample: a presentation containing a zero-run hit
frame does not always raise the IndexError — here a two-paragraph token
hit processed earlier raises the clearing loop's AttributeError first. -/
theorem zero_run_claim_counterexample :
    frameBad "[X]" fieldFrame = true ∧
    Shape.textShape fieldFrame ∈ (prsCrashThenField.slides.headD ⟨[]⟩).shapes ∧
    search_and_replace "[X]" "Y" prsCrashThenField = Except.error PptxError.attributeError ∧
    search_and_replace "[X]" "Y" prsCrashThenField ≠ Except.error PptxError.indexError := by
  refine ⟨?_, ?_, ?_, ?_⟩ <;> decide

/-- Claim C10, amended: on every presentation containing a frame whose
visible text holds the token, whose first paragraph holds the token, and
whose first paragraph has zero styled runs, `search_and_replace` raises an
exception instead of substituting or skipping (the engine is not total);
the exception is the claimed IndexError whenever no frame of the
presentation crashes the clearing loop (no multi-paragraph token hit), but
an earlier-processed crash frame pre-empts it with an AttributeError. -/
theorem zero_run_first_paragraph_raises (s r : String) (prs : Presentation)
    (hbad : ∃ sl ∈ prs.slides, ∃ sh ∈ sl.shapes, shapeBad s sh = true) :
    (∃ e, search_and_replace s r prs = Except.error e) ∧
    ((∀ sl ∈ prs.slides, ∀ sh ∈ sl.shapes, shapeCrash s sh = false) →
      search_and_replace s r prs = Except.error PptxError.indexError) := by
  obtain ⟨sl, hsl, sh, hsh, hb⟩ := hbad
  constructor
  · obtain ⟨e, he⟩ := substSlides_some_error s r prs.slides sl hsl sh hsh hb
    exact ⟨e, by rw [search_and_replace, he]; rfl⟩
  · intro hnc
    rw [search_and_replace, substSlides_index s r prs.slides sl hsl sh hsh hb hnc]
    rfl

/-- Claim C10, witness: a presentation whose only frame's first paragraph
is a single field child containing the token — no crash frame present, so
the call raises, and raises the IndexError. -/
theorem zero_run_first_paragraph_raises_witness :
    (∃ e, search_and_replace "[X]" "Y" prsFieldOnly = Except.error e) ∧
    search_and_replace "[X]" "Y" prsFieldOnly = Except.error PptxError.indexError :=
  ⟨(zero_run_first_paragraph_raises "[X]" "Y" prsFieldOnly (by decide)).1,
   (zero_run_first_paragraph_raises "[X]" "Y" prsFieldOnly (by decide)).2 (by decide)⟩

end FactSheet
